import Mathlib

/-
  Verification of the certifiable-quant core against its specification.

  The C sources are shallowly embedded: machine integers become Int/Nat with
  explicit wrap (% 2^64) where the C computation wraps, C signed division and
  remainder (truncation toward zero) become Int.tdiv / Int.tmod, IEEE-754
  double/float scratch arithmetic is idealised as exact rational arithmetic
  over Rat, and functions that mutate a struct through a pointer become pure
  functions returning the updated struct.  NULL-pointer guards are dropped:
  the embedding models calls with valid references only.
-/

/- ============================================================================
   Fault flags (include/cq_types.h)
   ============================================================================ -/

/-- Embedding of cq_fault_flags_t: one Bool per fault bit. -/
structure cq_fault_flags_t where
  overflow : Bool
  underflow : Bool
  div_zero : Bool
  range_exceed : Bool
  unfolded_bn : Bool
  asymmetric : Bool
  bound_violation : Bool
deriving DecidableEq, Repr

/-- Embedding of cq_fault_clear: all bits zero. -/
def cq_fault_clear : cq_fault_flags_t :=
  ⟨false, false, false, false, false, false, false⟩

/-- Embedding of cq_fault_merge: bitwise OR of the two flag sets. -/
def cq_fault_merge (dst src : cq_fault_flags_t) : cq_fault_flags_t :=
  ⟨dst.overflow || src.overflow, dst.underflow || src.underflow,
   dst.div_zero || src.div_zero, dst.range_exceed || src.range_exceed,
   dst.unfolded_bn || src.unfolded_bn, dst.asymmetric || src.asymmetric,
   dst.bound_violation || src.bound_violation⟩

/- ============================================================================
   DVM primitives (src/dvm/primitives.c)

   C signed division truncates toward zero and the remainder has the sign of
   the dividend (C99 6.5.5); this is exactly Int.tdiv / Int.tmod.  The C
   expression (quot & 1) on a two's-complement signed integer is 1 when quot
   is odd and 0 when it is even, i.e. quot % 2 with Euclidean remainder.
   ============================================================================ -/

def INT32_MAX : Int := 2147483647

def INT32_MIN : Int := -2147483648

/-- Embedding of cq_clamp32: saturate a 64-bit value to 32 bits, flagging
overflow or underflow. -/
def cq_clamp32 (x : Int) (faults : cq_fault_flags_t) : Int × cq_fault_flags_t :=
  if INT32_MAX < x then (INT32_MAX, { faults with overflow := true })
  else if x < INT32_MIN then (INT32_MIN, { faults with underflow := true })
  else (x, faults)

/-- Embedding of cq_round_shift_rne (primitives.c lines 63-97). -/
def cq_round_shift_rne (x : Int) (shift : Nat) (faults : cq_fault_flags_t) :
    Int × cq_fault_flags_t :=
  if 62 < shift then (0, { faults with overflow := true })
  else if shift = 0 then cq_clamp32 x faults
  else
    let divisor : Int := 2 ^ shift
    let half : Int := divisor.tdiv 2
    let quot : Int := x.tdiv divisor
    let remainder : Int := x.tmod divisor
    let quot2 : Int :=
      if half < remainder then quot + 1
      else if remainder < -half then quot - 1
      else if remainder = half then quot + quot % 2
      else if remainder = -half then quot - quot % 2
      else quot
    cq_clamp32 quot2 faults

/-- Embedding of cq_div_q16 (primitives.c lines 109-132).  The shifted
dividend (int64_t)a << 16 is the exact product a * 2^16. -/
def cq_div_q16 (a b : Int) (faults : cq_fault_flags_t) : Int × cq_fault_flags_t :=
  if b = 0 then (0, { faults with div_zero := true })
  else
    let wide_a : Int := a * 2 ^ 16
    let quot : Int := wide_a.tdiv b
    let rem : Int := wide_a.tmod b
    let half_b : Int := if 0 < b then b.tdiv 2 else (-b).tdiv 2
    let abs_rem : Int := if 0 ≤ rem then rem else -rem
    let quot2 : Int :=
      if half_b < abs_rem then (if 0 ≤ quot then quot + 1 else quot - 1)
      else if abs_rem = half_b then
        (if quot % 2 = 1 then (if 0 ≤ quot then quot + 1 else quot - 1) else quot)
      else quot
    cq_clamp32 quot2 faults

/-- Embedding of cq_overflow_proof_t (cq_types.h). -/
structure cq_overflow_proof_t where
  max_weight_mag : Nat
  max_input_mag : Nat
  dot_product_len : Nat
  safety_margin : Nat
  is_safe : Bool
deriving DecidableEq, Repr

def UINT64_MAX : Nat := 2 ^ 64 - 1

/-- Embedding of cq_overflow_is_safe (primitives.c lines 154-164): the three
stored magnitudes are multiplied in uint64_t arithmetic, which wraps
modulo 2^64; there is no per-step wrap guard here. -/
def cq_overflow_is_safe (proof : cq_overflow_proof_t) : Bool :=
  if proof.dot_product_len = 0 then true
  else
    decide ((proof.dot_product_len * proof.max_weight_mag * proof.max_input_mag) % 2 ^ 64
      < 2 ^ 63)

/-- Embedding of cq_compute_overflow_proof (analyze.c lines 24-89): staged
multiplications, each guarded against uint64_t wrap before it happens.
Returns the C bool result together with the filled proof structure. -/
def cq_compute_overflow_proof (max_weight_mag max_input_mag dot_product_len : Nat) :
    Bool × cq_overflow_proof_t :=
  let n := dot_product_len
  let w := max_weight_mag
  let x := max_input_mag
  if n = 0 ∨ w = 0 ∨ x = 0 then
    (true, ⟨w, x, n, 2 ^ 63, true⟩)
  else if UINT64_MAX / n < w then
    (false, ⟨w, x, n, 0, false⟩)
  else
    let nw := n * w
    if UINT64_MAX / nw < x then
      (false, ⟨w, x, n, 0, false⟩)
    else
      let product := nw * x
      if product < 2 ^ 63 then
        (true, ⟨w, x, n, 2 ^ 63 - product, true⟩)
      else
        (false, ⟨w, x, n, 0, false⟩)

/- ============================================================================
   Specification-side rounding: round to nearest, ties to even
   ============================================================================ -/

/-- Specification-side definition (spec spells out RNE): the integer nearest
to the exact quotient x / d (for d positive), with a tie between two integers
resolved toward the even one.  Written with Euclidean quotient and remainder:
x = d * q + r with 0 <= r < d, so the fractional part is r / d. -/
def rneDiv (x d : Int) : Int :=
  let q := x / d
  let r := x % d
  if 2 * r < d then q
  else if d < 2 * r then q + 1
  else if q % 2 = 0 then q else q + 1

/- ============================================================================
   Analyzer (src/analyze/analyze.c) - error recurrence and context
   ============================================================================ -/

/-- Embedding of cq_range_t (analyze.h): a closed interval of doubles. -/
structure cq_range_t where
  min_val : ℚ
  max_val : ℚ
deriving DecidableEq, Repr

/-- Embedding of cq_layer_contract_t (analyze.h). -/
structure cq_layer_contract_t where
  layer_index : Nat
  layer_type : Nat
  fan_in : Nat
  fan_out : Nat
  weight_range : cq_range_t
  input_range : cq_range_t
  output_range : cq_range_t
  amp_factor : ℚ
  weight_error_contrib : ℚ
  bias_error_contrib : ℚ
  projection_error : ℚ
  local_error_sum : ℚ
  input_error_bound : ℚ
  output_error_bound : ℚ
  overflow_proof : cq_overflow_proof_t
  is_valid : Bool
deriving DecidableEq, Repr

/-- Embedding of cq_layer_contract_init (analyze.c lines 331-349): zeroed
contract except for the identification fields and amp_factor = 1.0. -/
def cq_layer_contract_init (layer_index layer_type fan_in fan_out : Nat) :
    cq_layer_contract_t :=
  { layer_index := layer_index
    layer_type := layer_type
    fan_in := fan_in
    fan_out := fan_out
    weight_range := ⟨0, 0⟩
    input_range := ⟨0, 0⟩
    output_range := ⟨0, 0⟩
    amp_factor := 1
    weight_error_contrib := 0
    bias_error_contrib := 0
    projection_error := 0
    local_error_sum := 0
    input_error_bound := 0
    output_error_bound := 0
    overflow_proof := ⟨0, 0, 0, 0, false⟩
    is_valid := false }

/-- Embedding of cq_compute_error_contributions (analyze.c lines 242-266).
The C code computes bias_error_contrib as 0.5 / (weight_scale * weight_scale),
with the comment "Assuming S_x = S_w"; the function does not receive the
input scale at all. -/
def cq_compute_error_contributions (contract : cq_layer_contract_t)
    (weight_scale output_scale max_input_norm : ℚ) : cq_layer_contract_t :=
  if weight_scale ≤ 0 ∨ output_scale ≤ 0 then contract
  else
    let w := 1 / 2 / weight_scale * max_input_norm
    let b := 1 / 2 / (weight_scale * weight_scale)
    let p := 1 / 2 / output_scale
    { contract with
      weight_error_contrib := w
      bias_error_contrib := b
      projection_error := p
      local_error_sum := w + b + p }

/-- Specification-side definition (spec section 4.B): the accumulator quantum
bias_err = 1 / (2 * S_w * S_x), half an LSB of the accumulator scale
S_acc = S_w * S_x. -/
def spec_bias_error_contrib (s_w s_x : ℚ) : ℚ := 1 / 2 / (s_w * s_x)

/-- Embedding of cq_apply_error_recurrence (analyze.c lines 268-285). -/
def cq_apply_error_recurrence (contract : cq_layer_contract_t)
    (input_error_bound : ℚ) : cq_layer_contract_t :=
  { contract with
    input_error_bound := input_error_bound
    output_error_bound := contract.amp_factor * input_error_bound +
      contract.local_error_sum
    is_valid := true }

/-- Embedding of cq_compute_entry_error (analyze.c lines 291-299):
0.5 / 2 ^ input_scale_exp. -/
def cq_compute_entry_error (input_scale_exp : Nat) : ℚ :=
  1 / 2 / 2 ^ input_scale_exp

/-- Embedding of cq_analysis_ctx_t (analyze.h).  The caller-allocated layers
array is a Lean list; layer_count is its length. -/
structure cq_analysis_ctx_t where
  entry_error : ℚ
  input_scale_exp : Nat
  layers : List cq_layer_contract_t
  total_error_bound : ℚ
  is_complete : Bool
  is_valid : Bool
  faults : cq_fault_flags_t
deriving DecidableEq, Repr

/-- Embedding of cq_compute_total_error (analyze.c lines 355-384): with no
layers the total is the entry error; otherwise it is the output error bound
of the last layer, and is_valid requires every layer contract valid. -/
def cq_compute_total_error (ctx : cq_analysis_ctx_t) : Int × cq_analysis_ctx_t :=
  if ctx.layers.isEmpty then
    (0, { ctx with total_error_bound := ctx.entry_error,
                   is_complete := true, is_valid := true })
  else
    (0, { ctx with
          total_error_bound :=
            (ctx.layers.getLastD (cq_layer_contract_init 0 0 0 0)).output_error_bound
          is_valid := ctx.layers.all (fun c => c.is_valid)
          is_complete := true })

/-- Driver-level chain processing (the per-layer loop the spec describes):
feed the entry error into the first contract via cq_apply_error_recurrence and
thread each computed output_error_bound into the next layer. -/
def cq_process_chain (eps : ℚ) : List cq_layer_contract_t → List cq_layer_contract_t
  | [] => []
  | c :: rest =>
    let c1 := cq_apply_error_recurrence c eps
    c1 :: cq_process_chain c1.output_error_bound rest

/-- Driver-level sealed context handed to cq_compute_total_error: entry error
and the processed layer contracts. -/
def mkAnalysisCtx (eps : ℚ) (layers : List cq_layer_contract_t) : cq_analysis_ctx_t :=
  { entry_error := eps
    input_scale_exp := 16
    layers := layers
    total_error_bound := 0
    is_complete := false
    is_valid := false
    faults := cq_fault_clear }

/-- Total error of a processed chain, as the driver obtains it from
cq_compute_total_error. -/
def chainTotal (eps : ℚ) (layers : List cq_layer_contract_t) : ℚ :=
  ((cq_compute_total_error (mkAnalysisCtx eps (cq_process_chain eps layers))).2).total_error_bound

/-- Closed form of the recurrence: fold eps through A * eps + L. -/
def foldBound (eps : ℚ) (layers : List cq_layer_contract_t) : ℚ :=
  layers.foldl (fun e c => c.amp_factor * e + c.local_error_sum) eps

/- ============================================================================
   Verifier (src/verify/verify.c) - bound checking and digest
   ============================================================================ -/

/-- Embedding of cq_layer_comparison_t (verify.h). -/
structure cq_layer_comparison_t where
  layer_index : Nat
  sample_count : Nat
  error_max_measured : ℚ
  error_mean_measured : ℚ
  error_std_measured : ℚ
  error_bound_theoretical : ℚ
  error_sum : ℚ
  error_sum_sq : ℚ
  bound_satisfied : Bool
deriving DecidableEq, Repr

/-- Embedding of cq_verification_report_t (verify.h).  The caller-allocated
layers array is a Lean list; layer_count is its length.  Hashes are byte
lists. -/
structure cq_verification_report_t where
  verification_set_hash : List Nat
  sample_count : Nat
  layers : List cq_layer_comparison_t
  total_error_theoretical : ℚ
  total_error_max_measured : ℚ
  total_error_mean : ℚ
  total_error_std : ℚ
  total_error_sum : ℚ
  total_error_sum_sq : ℚ
  all_bounds_satisfied : Bool
  total_bound_satisfied : Bool
  faults : cq_fault_flags_t
deriving DecidableEq, Repr

/-- Embedding of cq_verification_digest_t (verify.h). -/
structure cq_verification_digest_t where
  verification_set_hash : List Nat
  sample_count : Nat
  layers_passed : Nat
  total_error_theoretical : ℚ
  total_error_max_measured : ℚ
  bounds_satisfied : Nat
deriving DecidableEq, Repr

/-- Embedding of cq_verify_check_bounds (verify.c lines 64-83): returns the
C result code together with the updated layer and fault flags.
CQ_FAULT_BOUND_VIOLATION = 0x40 = 64. -/
def cq_verify_check_bounds (layer : cq_layer_comparison_t)
    (faults : cq_fault_flags_t) :
    Int × cq_layer_comparison_t × cq_fault_flags_t :=
  if layer.error_bound_theoretical < layer.error_max_measured then
    (64, { layer with bound_satisfied := false },
     { faults with bound_violation := true })
  else
    (0, { layer with bound_satisfied := true }, faults)

/-- Embedding of the per-layer for-loop inside cq_verify_check_all_bounds
(verify.c lines 96-107), threading the fault flags, the running result code
and the running all_bounds_satisfied flag. -/
def cq_check_layers_loop :
    List cq_layer_comparison_t → cq_fault_flags_t → Int → Bool →
    List cq_layer_comparison_t × cq_fault_flags_t × Int × Bool
  | [], f, result, allSat => ([], f, result, allSat)
  | l :: rest, f, result, allSat =>
    let step := cq_verify_check_bounds l f
    let result1 := if step.1 ≠ 0 then step.1 else result
    let allSat1 := if step.1 ≠ 0 then false else allSat
    let tail := cq_check_layers_loop rest step.2.2 result1 allSat1
    (step.2.1 :: tail.1, tail.2)

/-- Embedding of cq_verify_check_all_bounds (verify.c lines 85-122): check
every layer (continuing past violations), then the total bound, then merge the
updated fault flags into the report.  Returns (result code, updated report,
updated caller fault flags). -/
def cq_verify_check_all_bounds (report : cq_verification_report_t)
    (faults : cq_fault_flags_t) :
    Int × cq_verification_report_t × cq_fault_flags_t :=
  let loop := cq_check_layers_loop report.layers faults 0 true
  let f1 := loop.2.1
  let result1 := loop.2.2.1
  let allSat := loop.2.2.2
  let step2 :=
    if report.total_error_theoretical < report.total_error_max_measured then
      ((64 : Int), false, { f1 with bound_violation := true })
    else
      (result1, true, f1)
  (step2.1,
   { report with
     layers := loop.1
     all_bounds_satisfied := allSat
     total_bound_satisfied := step2.2.1
     faults := cq_fault_merge report.faults step2.2.2 },
   step2.2.2)

/-- Helper predicate: the layer is marked satisfied by cq_verify_check_bounds
(weak inequality, equality passes). -/
def layerPasses (l : cq_layer_comparison_t) : Bool :=
  decide (l.error_max_measured ≤ l.error_bound_theoretical)

/-- Helper predicate: the layer violates its theoretical bound. -/
def layerViolates (l : cq_layer_comparison_t) : Bool :=
  decide (l.error_bound_theoretical < l.error_max_measured)

/-- Helper: the layer with its bound_satisfied field recomputed. -/
def checkedLayer (l : cq_layer_comparison_t) : cq_layer_comparison_t :=
  { l with bound_satisfied := layerPasses l }

/-- Embedding of cq_verification_digest_generate (verify.c lines 252-287). -/
def cq_verification_digest_generate (report : cq_verification_report_t) :
    Int × cq_verification_digest_t :=
  (0,
   { verification_set_hash := report.verification_set_hash
     sample_count := report.sample_count
     layers_passed := (report.layers.filter (fun l => l.bound_satisfied)).length
     total_error_theoretical := report.total_error_theoretical
     total_error_max_measured := report.total_error_max_measured
     bounds_satisfied :=
       if report.all_bounds_satisfied && report.total_bound_satisfied then 1 else 0 })

/- ============================================================================
   Calibrator (src/calibrate/calibrate.c)
   ============================================================================ -/

/-- Exact value of FLT_MAX, the initial min_observed sentinel:
(2 - 2^-23) * 2^127. -/
def fltMax : ℚ := (2 ^ 24 - 1) * 2 ^ 104

/-- Embedding of cq_tensor_stats_t (calibrate.h). -/
structure cq_tensor_stats_t where
  tensor_id : Nat
  layer_index : Nat
  min_observed : ℚ
  max_observed : ℚ
  min_safe : ℚ
  max_safe : ℚ
  coverage_ratio : ℚ
  is_degenerate : Bool
  range_veto : Bool
deriving DecidableEq, Repr

/-- Embedding of cq_calibrate_config_t (calibrate.h). -/
structure cq_calibrate_config_t where
  coverage_min_threshold : ℚ
  coverage_p10_threshold : ℚ
  degenerate_epsilon : ℚ
  min_samples : Nat
deriving DecidableEq, Repr

/-- Embedding of cq_tensor_stats_init (calibrate.c lines 23-47): observed
range starts at (FLT_MAX, -FLT_MAX) so the first finite sample replaces it. -/
def cq_tensor_stats_init (tensor_id layer_index : Nat) (min_safe max_safe : ℚ) :
    cq_tensor_stats_t :=
  { tensor_id := tensor_id
    layer_index := layer_index
    min_observed := fltMax
    max_observed := -fltMax
    min_safe := min_safe
    max_safe := max_safe
    coverage_ratio := 0
    is_degenerate := false
    range_veto := false }

/-- Embedding of cq_tensor_check_range_veto (calibrate.c lines 132-150). -/
def cq_tensor_check_range_veto (stats : cq_tensor_stats_t) :
    Bool × cq_tensor_stats_t :=
  if stats.min_observed < stats.min_safe ∨ stats.max_safe < stats.max_observed then
    (true, { stats with range_veto := true })
  else
    (false, { stats with range_veto := false })

/-- Exact value of the float literal 1e-7f (the default degenerate epsilon):
the IEEE-754 single nearest to 1e-7 is 14073749 * 2^-47. -/
def defaultDegenerateEpsilon : ℚ := 14073749 / 2 ^ 47

/-- Embedding of cq_tensor_compute_coverage (calibrate.c lines 92-126): a
degenerate observed range, or a degenerate claimed safe range, short-circuits
to coverage 1.0 before the division is reached. -/
def cq_tensor_compute_coverage (stats : cq_tensor_stats_t)
    (config : Option cq_calibrate_config_t) : cq_tensor_stats_t :=
  let epsilon := match config with
    | some c => c.degenerate_epsilon
    | none => defaultDegenerateEpsilon
  let observed_range := stats.max_observed - stats.min_observed
  let safe_range := stats.max_safe - stats.min_safe
  if |observed_range| < epsilon then
    { stats with is_degenerate := true, coverage_ratio := 1 }
  else if |safe_range| < epsilon then
    { stats with is_degenerate := true, coverage_ratio := 1 }
  else
    { stats with is_degenerate := false,
                 coverage_ratio := observed_range / safe_range }

/-- Embedding of cq_calibration_report_t (calibrate.h).  The caller-allocated
tensor array is a Lean list; tensor_count is its length. -/
structure cq_calibration_report_t where
  dataset_hash : List Nat
  sample_count : Nat
  tensors : List cq_tensor_stats_t
  global_coverage_min : ℚ
  global_coverage_p10 : ℚ
  global_coverage_mean : ℚ
  range_veto_triggered : Bool
  coverage_veto_triggered : Bool
  faults : cq_fault_flags_t
deriving DecidableEq, Repr

/-- Embedding of cq_calibration_compute_global_coverage (calibrate.c lines
257-315), on the path where the temporary sort buffer is available (the
malloc-failure fallback, which collapses p10 to the minimum, is outside this
claim and not modelled).  qsort with cq_float_compare_asc sorts the copied
coverage values ascending, modelled by insertionSort; the percentile index
(uint32_t)((float)n * 0.1f) is idealised as the exact floor of n / 10, then
clipped to n - 1. -/
def cq_calibration_compute_global_coverage (report : cq_calibration_report_t) :
    cq_calibration_report_t :=
  if report.tensors.isEmpty then report
  else
    let n := report.tensors.length
    let coverages := report.tensors.map (fun t => t.coverage_ratio)
    let sum := coverages.foldl (fun a c => a + c) 0
    let min_cov := coverages.foldl (fun a c => if c < a then c else a) fltMax
    let sorted := List.insertionSort (fun a b => a ≤ b) coverages
    let p10_idx0 := (⌊(n : ℚ) * (1 / 10)⌋).toNat
    let p10_idx := if n ≤ p10_idx0 then n - 1 else p10_idx0
    { report with
      global_coverage_mean := sum / (n : ℚ)
      global_coverage_min := min_cov
      global_coverage_p10 := sorted.getD p10_idx 0 }

/- ============================================================================
   Notary (src/certificate/certificate.c)
   ============================================================================ -/

/-- Embedding of cq_analysis_digest_t (analyze.h). -/
structure cq_analysis_digest_t where
  entry_error : ℚ
  total_error_bound : ℚ
  layer_count : Nat
  overflow_safe_count : Nat
  layers_hash : List Nat
deriving DecidableEq, Repr

/-- Embedding of cq_calibration_digest_t (calibrate.h). -/
structure cq_calibration_digest_t where
  dataset_hash : List Nat
  sample_count : Nat
  tensor_count : Nat
  global_coverage_min : ℚ
  global_coverage_p10 : ℚ
  range_veto_status : Nat
  coverage_veto_status : Nat
deriving DecidableEq, Repr

/-- Embedding of cq_certificate_builder_t (certificate.h). -/
structure cq_certificate_builder_t where
  source_model_hash : List Nat
  source_model_hash_set : Bool
  bn_folding_hash : List Nat
  bn_folded : Bool
  bn_info_set : Bool
  analysis_digest : cq_analysis_digest_t
  analysis_set : Bool
  calibration_digest : cq_calibration_digest_t
  calibration_set : Bool
  verification_digest : cq_verification_digest_t
  verification_set : Bool
  target_model_hash : List Nat
  target_param_count : Nat
  target_layer_count : Nat
  target_set : Bool
  scope_format : Nat
  tool_version : List Nat
  faults : cq_fault_flags_t
deriving DecidableEq, Repr

/-- Embedding of cq_certificate_t (certificate.h), sections 1-6.  The three
32-byte digest hash fields hold SHA-256 images of the in-memory digest
structures; since no claim depends on hash values, each is modelled by the
hashed digest structure itself (an injective stand-in).  The integrity
section (Merkle root over the raw certificate bytes, zero signature) hashes
an IEEE-754 byte image and is outside the embedding; no claim refers to it.
The timestamp comes from time(NULL) and is modelled as 0. -/
structure cq_certificate_t where
  magic : List Nat
  version : List Nat
  timestamp : Nat
  scope_symmetric_only : Nat
  scope_format : Nat
  source_model_hash : List Nat
  bn_folding_hash : List Nat
  bn_folding_status : Nat
  analysis_digest : cq_analysis_digest_t
  calibration_digest : cq_calibration_digest_t
  verification_digest : cq_verification_digest_t
  epsilon_0_claimed : ℚ
  epsilon_total_claimed : ℚ
  epsilon_max_measured : ℚ
  target_model_hash : List Nat
  target_param_count : Nat
  target_layer_count : Nat
deriving DecidableEq, Repr

/-- Embedding of cq_certificate_builder_is_complete (certificate.c lines
148-160): all six set-bits are required. -/
def cq_certificate_builder_is_complete (builder : cq_certificate_builder_t) : Bool :=
  builder.source_model_hash_set && builder.bn_info_set && builder.analysis_set &&
  builder.calibration_set && builder.verification_set && builder.target_set

/-- Embedding of cq_certificate_build (certificate.c lines 196-249): refuse
with -2 when the builder is incomplete; otherwise assemble the certificate,
merge the builder fault flags into the caller flags, and return 0.  The code
performs no check of any fault flag before assembling. -/
def cq_certificate_build (builder : cq_certificate_builder_t)
    (faults : cq_fault_flags_t) :
    Int × Option cq_certificate_t × cq_fault_flags_t :=
  if ¬ cq_certificate_builder_is_complete builder then
    (-2, none, faults)
  else
    let cert : cq_certificate_t :=
      { magic := [67, 81, 67, 82]
        version := builder.tool_version
        timestamp := 0
        scope_symmetric_only := 1
        scope_format := builder.scope_format
        source_model_hash := builder.source_model_hash
        bn_folding_hash := builder.bn_folding_hash
        bn_folding_status := if builder.bn_folded then 1 else 0
        analysis_digest := builder.analysis_digest
        calibration_digest := builder.calibration_digest
        verification_digest := builder.verification_digest
        epsilon_0_claimed := builder.analysis_digest.entry_error
        epsilon_total_claimed := builder.analysis_digest.total_error_bound
        epsilon_max_measured := builder.verification_digest.total_error_max_measured
        target_model_hash := builder.target_model_hash
        target_param_count := builder.target_param_count
        target_layer_count := builder.target_layer_count }
    (0, some cert, cq_fault_merge faults builder.faults)

/- ============================================================================
   Concrete instances used as inputs of counterexamples and witnesses
   ============================================================================ -/

/-- An all-zero analysis digest. -/
def zeroAnalysisDigest : cq_analysis_digest_t := ⟨0, 0, 0, 0, []⟩

/-- An all-zero calibration digest. -/
def zeroCalibrationDigest : cq_calibration_digest_t := ⟨[], 0, 0, 0, 0, 0, 0⟩

/-- An all-zero verification digest. -/
def zeroVerificationDigest : cq_verification_digest_t := ⟨[], 0, 0, 0, 0, 0⟩

/-- A fully populated certificate builder whose accumulated fault set has the
fatal div_zero bit set: every setter has been called, so the builder is
complete, yet a fatal fault is present. -/
def c2builder : cq_certificate_builder_t :=
  { source_model_hash := []
    source_model_hash_set := true
    bn_folding_hash := []
    bn_folded := false
    bn_info_set := true
    analysis_digest := zeroAnalysisDigest
    analysis_set := true
    calibration_digest := zeroCalibrationDigest
    calibration_set := true
    verification_digest := zeroVerificationDigest
    verification_set := true
    target_model_hash := []
    target_param_count := 0
    target_layer_count := 0
    target_set := true
    scope_format := 0
    tool_version := [0, 1, 0, 0]
    faults := { cq_fault_clear with div_zero := true } }

/-- A layer contract produced by the analyzer code itself: Q16.16 scales
(weight scale 65536, output scale 65536, max input norm 1) fed through
cq_compute_error_contributions, with amplification factor 1/2 (a legitimate
operator-norm upper bound, e.g. the Frobenius norm of the 1x1 weight matrix
[0.5]). -/
def c3layer : cq_layer_contract_t :=
  cq_compute_error_contributions
    { cq_layer_contract_init 0 0 1 1 with amp_factor := 1 / 2 } 65536 65536 1

/-- A layer contract with amplification factor 1 and a small nonnegative
local error sum, used to instantiate the amended monotonicity theorem. -/
def c3goodLayer : cq_layer_contract_t :=
  { cq_layer_contract_init 0 0 1 1 with amp_factor := 1, local_error_sum := 1 / 100 }

/-- A layer comparison whose measured maximum 1/2 is below its theoretical
bound 1. -/
def c5layer : cq_layer_comparison_t := ⟨0, 1, 1 / 2, 0, 0, 1, 0, 0, false⟩

/-- A verification report with one layer, measured maxima below all bounds. -/
def c5report : cq_verification_report_t :=
  ⟨[], 1, [c5layer], 1, 1 / 2, 0, 0, 0, 0, false, false, cq_fault_clear⟩

/-- A tensor-statistics record with a given identifier and coverage ratio. -/
def c8tensor (i : Nat) (c : ℚ) : cq_tensor_stats_t := ⟨i, 0, 0, 1, 0, 1, c, false, false⟩

/-- A calibration report with two tensors of coverage 3/4 and 1/2. -/
def c8report : cq_calibration_report_t :=
  ⟨[], 5, [c8tensor 0 (3 / 4), c8tensor 1 (1 / 2)], 0, 0, 0, false, false, cq_fault_clear⟩

/-- Tensor statistics whose claimed safe range [5, 5] is degenerate. -/
def c10degStats : cq_tensor_stats_t := ⟨0, 0, 0, 3, 5, 5, 0, false, false⟩

/-- Tensor statistics with nondegenerate observed range [0, 3] and safe
range [0, 4]. -/
def c10okStats : cq_tensor_stats_t := ⟨0, 0, 0, 3, 0, 4, 0, false, false⟩

/-- A calibration configuration with degenerate epsilon 1/1000. -/
def c10config : cq_calibrate_config_t := ⟨9 / 10, 19 / 20, 1 / 1000, 100⟩

/- ============================================================================
   Theorems
   ============================================================================ -/

/-- C1: the staged builder cq_compute_overflow_proof decides exactly the
condition n * |w| * |x| < 2^63 (a zero factor counts as safe, and the staged
guards keep the builder itself from wrapping), but the re-checking primitive
cq_overflow_is_safe multiplies the stored fields without wrap guards: on the
fields (n, |w|, |x|) = (2^22, 2^21, 2^21), whose exact product is 2^64, the
builder stores is_safe = false while the primitive wraps the uint64 product
to 0 and reports the proof safe.  This refutes the claim for the primitive. -/
theorem C1_overflow_check :
    (∀ w x n : Nat,
      (cq_compute_overflow_proof w x n).2.is_safe = true ↔ n * w * x < 2 ^ 63) ∧
    (cq_compute_overflow_proof (2 ^ 21) (2 ^ 21) (2 ^ 22)).2.is_safe = false ∧
    cq_overflow_is_safe (cq_compute_overflow_proof (2 ^ 21) (2 ^ 21) (2 ^ 22)).2 = true ∧
    2 ^ 63 ≤ 2 ^ 22 * 2 ^ 21 * 2 ^ 21 := by
  refine ⟨?_, by decide, by decide, by norm_num⟩
  intro w x n
  unfold cq_compute_overflow_proof
  by_cases hz : n = 0 ∨ w = 0 ∨ x = 0
  · rw [if_pos hz]
    refine ⟨fun _ => ?_, fun _ => rfl⟩
    rcases hz with h | h | h <;> subst h <;> omega
  · rw [if_neg hz]
    push_neg at hz
    obtain ⟨hn, hw, hx⟩ := hz
    have hn1 : 0 < n := Nat.pos_of_ne_zero hn
    have hw1 : 0 < w := Nat.pos_of_ne_zero hw
    have hx1 : 0 < x := Nat.pos_of_ne_zero hx
    by_cases h1 : UINT64_MAX / n < w
    · rw [if_pos h1]
      have h2 : UINT64_MAX < n * w := by
        have h2a := (Nat.div_lt_iff_lt_mul hn1).mp h1
        rwa [Nat.mul_comm] at h2a
      have hbig : ¬ n * w * x < 2 ^ 63 := by
        have h3 : n * w ≤ n * w * x := Nat.le_mul_of_pos_right _ hx1
        unfold UINT64_MAX at h2
        omega
      exact ⟨fun h => (Bool.false_ne_true h).elim, fun h => absurd h hbig⟩
    · rw [if_neg h1]
      by_cases h2 : UINT64_MAX / (n * w) < x
      · rw [if_pos h2]
        have hnwpos : 0 < n * w := Nat.mul_pos hn1 hw1
        have h3 : UINT64_MAX < n * w * x := by
          have h3a := (Nat.div_lt_iff_lt_mul hnwpos).mp h2
          rwa [Nat.mul_comm] at h3a
        have hbig : ¬ n * w * x < 2 ^ 63 := by
          unfold UINT64_MAX at h3
          omega
        exact ⟨fun h => (Bool.false_ne_true h).elim, fun h => absurd h hbig⟩
      · rw [if_neg h2]
        by_cases h3 : n * w * x < 2 ^ 63
        · rw [if_pos h3]
          exact ⟨fun _ => h3, fun _ => rfl⟩
        · rw [if_neg h3]
          exact ⟨fun h => (Bool.false_ne_true h).elim, fun h => absurd h h3⟩

/-- C2 counterexample: a fully populated builder carrying the fatal div_zero
fault flag.  cq_certificate_build nevertheless returns 0 and assembles the
certificate, refuting the claim that any fatal fault flag in its inputs makes
it refuse with a nonzero error code. -/
theorem C2_counterexample :
    c2builder.faults.div_zero = true ∧
    (cq_certificate_build c2builder cq_fault_clear).1 = 0 ∧
    ((cq_certificate_build c2builder cq_fault_clear).2.1).isSome = true := by
  decide

/-- C2 (amended): cq_certificate_build refuses, with error code -2 and no
certificate, exactly when its builder is incomplete.  Fault flags never cause
a refusal: when the builder is complete the certificate is assembled and 0 is
returned, with the builder fault set merely merged into the caller flags. -/
theorem C2_build_refuses_iff_incomplete (builder : cq_certificate_builder_t)
    (faults : cq_fault_flags_t) :
    (cq_certificate_build builder faults).1 =
      (if cq_certificate_builder_is_complete builder then 0 else -2) ∧
    ((cq_certificate_build builder faults).2.1).isSome =
      cq_certificate_builder_is_complete builder ∧
    (cq_certificate_build builder faults).2.2 =
      (if cq_certificate_builder_is_complete builder then
        cq_fault_merge faults builder.faults else faults) := by
  unfold cq_certificate_build
  by_cases h : cq_certificate_builder_is_complete builder <;> simp [h]

/-- C4: cq_compute_error_contributions sets bias_error_contrib to
0.5 / (weight_scale * weight_scale) - it never receives the input scale.  At
weight scale 2 the code stores 1/8, whereas the accumulator quantum
1 / (2 * S_w * S_x) prescribed by the specification is 1/16 for input scale
4, so the two disagree whenever the scales differ. -/
theorem C4_bias_contrib_ignores_input_scale :
    (cq_compute_error_contributions (cq_layer_contract_init 0 0 1 1) 2 1 0).bias_error_contrib
      = 1 / 8 ∧
    spec_bias_error_contrib 2 4 = 1 / 16 ∧
    (cq_compute_error_contributions (cq_layer_contract_init 0 0 1 1) 2 1 0).bias_error_contrib
      ≠ spec_bias_error_contrib 2 4 := by
  refine ⟨?_, ?_, ?_⟩ <;> norm_num [cq_compute_error_contributions,
    cq_layer_contract_init, spec_bias_error_contrib]

/-- Helper: the output bound of the last processed contract of a nonempty
chain is the fold of the recurrence over the chain. -/
theorem processChain_getLastD (eps : ℚ) (c : cq_layer_contract_t)
    (layers : List cq_layer_contract_t) (d : cq_layer_contract_t) :
    ((cq_process_chain eps (c :: layers)).getLastD d).output_error_bound =
      foldBound eps (c :: layers) := by
  induction layers generalizing eps c d with
  | nil =>
    simp [cq_process_chain, cq_apply_error_recurrence, foldBound]
  | cons c2 rest ih =>
    have h1 : cq_process_chain eps (c :: c2 :: rest) =
        cq_apply_error_recurrence c eps ::
          cq_process_chain (cq_apply_error_recurrence c eps).output_error_bound
            (c2 :: rest) := rfl
    rw [h1, List.getLastD_cons, ih]
    rfl

/-- Helper: the driver-level total error equals the fold of the recurrence. -/
theorem chainTotal_eq_foldBound (eps : ℚ) (layers : List cq_layer_contract_t) :
    chainTotal eps layers = foldBound eps layers := by
  cases layers with
  | nil =>
    simp [chainTotal, cq_process_chain, cq_compute_total_error, mkAnalysisCtx,
      foldBound]
  | cons c rest =>
    have h1 : cq_process_chain eps (c :: rest) =
        cq_apply_error_recurrence c eps ::
          cq_process_chain (cq_apply_error_recurrence c eps).output_error_bound
            rest := rfl
    simp only [chainTotal, cq_compute_total_error, mkAnalysisCtx]
    rw [if_neg (by rw [h1]; simp)]
    exact processChain_getLastD eps c rest _

/-- Helper: with amplification factors at least 1 and nonnegative local error
sums, the recurrence fold never drops below its (nonnegative) starting
value. -/
theorem foldBound_invariant (layers : List cq_layer_contract_t) :
    ∀ e : ℚ, 0 ≤ e →
      (∀ c ∈ layers, 1 ≤ c.amp_factor ∧ 0 ≤ c.local_error_sum) →
      e ≤ foldBound e layers := by
  induction layers with
  | nil =>
    intro e _ _
    simp [foldBound]
  | cons c rest ih =>
    intro e he hl
    have hc := hl c (by simp)
    have hstep : e ≤ c.amp_factor * e + c.local_error_sum := by
      have := le_mul_of_one_le_left he hc.1
      linarith [hc.2]
    have hrest := ih (c.amp_factor * e + c.local_error_sum) (le_trans he hstep)
      (fun c2 hc2 => hl c2 (by simp [hc2]))
    calc e ≤ c.amp_factor * e + c.local_error_sum := hstep
      _ ≤ foldBound (c.amp_factor * e + c.local_error_sum) rest := hrest
      _ = foldBound e (c :: rest) := rfl

/-- Helper: under the same hypotheses, every processed contract has output
bound at least its input bound. -/
theorem processChain_monotone (layers : List cq_layer_contract_t) :
    ∀ e : ℚ, 0 ≤ e →
      (∀ c ∈ layers, 1 ≤ c.amp_factor ∧ 0 ≤ c.local_error_sum) →
      ∀ c1 ∈ cq_process_chain e layers,
        c1.input_error_bound ≤ c1.output_error_bound := by
  induction layers with
  | nil =>
    intro e _ _ c1 hc1
    simp [cq_process_chain] at hc1
  | cons c rest ih =>
    intro e he hl c1 hc1
    have hc := hl c (by simp)
    have hgrow : e ≤ c.amp_factor * e + c.local_error_sum := by
      have := le_mul_of_one_le_left he hc.1
      linarith [hc.2]
    have h1 : cq_process_chain e (c :: rest) =
        cq_apply_error_recurrence c e ::
          cq_process_chain (cq_apply_error_recurrence c e).output_error_bound
            rest := rfl
    rw [h1] at hc1
    rcases List.mem_cons.mp hc1 with h | h
    · subst h
      simp only [cq_apply_error_recurrence]
      exact hgrow
    · have hout : (cq_apply_error_recurrence c e).output_error_bound =
          c.amp_factor * e + c.local_error_sum := rfl
      exact ih ((cq_apply_error_recurrence c e).output_error_bound)
        (by rw [hout]; exact le_trans he hgrow)
        (fun c2 hc2 => hl c2 (by simp [hc2])) c1 h

/-- C3 counterexample: the single-layer chain built by the analyzer code from
Q16.16 scales with amplification factor 1/2 (a legitimate operator-norm bound)
and entry error 1/2 yields a total error bound below the entry error, and its
layer has output_error_bound below input_error_bound.  This refutes the
unconditional monotonicity claim. -/
theorem C3_counterexample :
    chainTotal (cq_compute_entry_error 0) [c3layer] < cq_compute_entry_error 0 ∧
    ((cq_process_chain (cq_compute_entry_error 0) [c3layer]).getLastD
        (cq_layer_contract_init 0 0 0 0)).output_error_bound <
      ((cq_process_chain (cq_compute_entry_error 0) [c3layer]).getLastD
        (cq_layer_contract_init 0 0 0 0)).input_error_bound := by
  constructor
  · rw [chainTotal_eq_foldBound]
    norm_num [foldBound, c3layer, cq_compute_error_contributions,
      cq_layer_contract_init, cq_compute_entry_error]
  · norm_num [cq_process_chain, cq_apply_error_recurrence, c3layer,
      cq_compute_error_contributions, cq_layer_contract_init,
      cq_compute_entry_error, List.getLastD_cons]

/-- C3 (amended): for chains whose layers all have amplification factor at
least 1 and nonnegative local error sum, and a nonnegative entry error, each
processed layer has output_error_bound at least its input_error_bound, the
total error finalized by cq_compute_total_error is at least the entry error,
and appending such a layer never decreases the total. -/
theorem C3_monotone_with_amplification (eps : ℚ)
    (layers : List cq_layer_contract_t) (heps : 0 ≤ eps)
    (hl : ∀ c ∈ layers, 1 ≤ c.amp_factor ∧ 0 ≤ c.local_error_sum) :
    (∀ c ∈ cq_process_chain eps layers,
      c.input_error_bound ≤ c.output_error_bound) ∧
    eps ≤ chainTotal eps layers ∧
    (∀ c : cq_layer_contract_t, 1 ≤ c.amp_factor → 0 ≤ c.local_error_sum →
      chainTotal eps layers ≤ chainTotal eps (layers ++ [c])) := by
  refine ⟨processChain_monotone layers eps heps hl, ?_, ?_⟩
  · rw [chainTotal_eq_foldBound]
    exact foldBound_invariant layers eps heps hl
  · intro c hc1 hc2
    rw [chainTotal_eq_foldBound, chainTotal_eq_foldBound]
    have hsplit : foldBound eps (layers ++ [c]) =
        c.amp_factor * foldBound eps layers + c.local_error_sum := by
      simp [foldBound, List.foldl_append]
    rw [hsplit]
    have h0 : 0 ≤ foldBound eps layers :=
      le_trans heps (foldBound_invariant layers eps heps hl)
    have := le_mul_of_one_le_left h0 hc1
    linarith

/-- C3 witness: the amended theorem instantiated on the one-layer chain with
amplification factor 1, local error sum 1/100 and entry error 1/2. -/
theorem C3_witness :
    (0 : ℚ) ≤ 1 / 2 ∧
    (∀ c ∈ [c3goodLayer], 1 ≤ c.amp_factor ∧ 0 ≤ c.local_error_sum) ∧
    ((∀ c ∈ cq_process_chain (1 / 2) [c3goodLayer],
        c.input_error_bound ≤ c.output_error_bound) ∧
      1 / 2 ≤ chainTotal (1 / 2) [c3goodLayer] ∧
      (∀ c : cq_layer_contract_t, 1 ≤ c.amp_factor → 0 ≤ c.local_error_sum →
        chainTotal (1 / 2) [c3goodLayer] ≤
          chainTotal (1 / 2) ([c3goodLayer] ++ [c]))) :=
  ⟨by norm_num, by norm_num [c3goodLayer, cq_layer_contract_init],
    C3_monotone_with_amplification (1 / 2) [c3goodLayer] (by norm_num)
      (by norm_num [c3goodLayer, cq_layer_contract_init])⟩

/-- Helper: closed form of the per-layer bound-checking loop.  Each layer gets
bound_satisfied set to the weak inequality, the fault flags acquire the
bound_violation bit exactly when some layer violates its bound, the result
code becomes 64 in that case, and the all-satisfied accumulator is conjoined
with satisfaction of every layer. -/
theorem check_layers_loop_spec (ls : List cq_layer_comparison_t)
    (f : cq_fault_flags_t) (result : Int) (allSat : Bool) :
    cq_check_layers_loop ls f result allSat =
      (ls.map checkedLayer,
       { f with bound_violation := f.bound_violation || ls.any layerViolates },
       if ls.any layerViolates then 64 else result,
       allSat && ls.all layerPasses) := by
  induction ls generalizing f result allSat with
  | nil =>
    simp [cq_check_layers_loop]
  | cons l rest ih =>
    simp only [cq_check_layers_loop, cq_verify_check_bounds]
    by_cases h : l.error_bound_theoretical < l.error_max_measured
    · simp [h, ih, checkedLayer, layerViolates, layerPasses, not_le.mpr h]
    · simp [h, ih, checkedLayer, layerViolates, layerPasses, not_lt.mp h]

/-- C5: after cq_verify_check_all_bounds (started from a fault set with a
clear bound_violation bit) and cq_verification_digest_generate, each layer is
marked satisfied exactly when its measured maximum is at most its theoretical
bound (equality passes), the digest byte is 1 exactly when every layer and the
total satisfy their bounds, and the fatal bound_violation flag is raised
exactly when some measured maximum (per layer or total) exceeds its bound. -/
theorem C5_bounds_and_digest (report : cq_verification_report_t)
    (faults : cq_fault_flags_t) (h : faults.bound_violation = false) :
    (∀ l ∈ ((cq_verify_check_all_bounds report faults).2.1).layers,
      l.bound_satisfied = true ↔
        l.error_max_measured ≤ l.error_bound_theoretical) ∧
    ((cq_verification_digest_generate
        (cq_verify_check_all_bounds report faults).2.1).2.bounds_satisfied = 1 ↔
      ((∀ l ∈ report.layers,
          l.error_max_measured ≤ l.error_bound_theoretical) ∧
        report.total_error_max_measured ≤ report.total_error_theoretical)) ∧
    (((cq_verify_check_all_bounds report faults).2.2).bound_violation = true ↔
      ((∃ l ∈ report.layers,
          l.error_bound_theoretical < l.error_max_measured) ∨
        report.total_error_theoretical < report.total_error_max_measured)) := by
  have hmap : ∀ l ∈ report.layers.map checkedLayer,
      l.bound_satisfied = true ↔
        l.error_max_measured ≤ l.error_bound_theoretical := by
    intro l hl
    obtain ⟨l0, _, hl0⟩ := List.mem_map.mp hl
    subst hl0
    simp [checkedLayer, layerPasses]
  simp only [cq_verify_check_all_bounds, check_layers_loop_spec,
    cq_verification_digest_generate]
  by_cases ht : report.total_error_theoretical < report.total_error_max_measured
  · rw [if_pos ht]
    refine ⟨hmap, ?_, ?_⟩
    · simp [not_le.mpr ht]
    · simp [ht]
  · rw [if_neg ht]
    refine ⟨hmap, ?_, ?_⟩
    · by_cases ha : ∀ l ∈ report.layers,
          l.error_max_measured ≤ l.error_bound_theoretical
      · have hall : report.layers.all layerPasses = true := by
          simp only [List.all_eq_true, layerPasses, decide_eq_true_eq]
          exact ha
        simp [hall, not_lt.mp ht]
        all_goals exact ha
      · have hall : report.layers.all layerPasses = false := by
          rw [Bool.eq_false_iff]
          intro hcontra
          exact ha (by simpa [layerPasses] using List.all_eq_true.mp hcontra)
        simp [hall, ha]
    · by_cases ha : ∃ l ∈ report.layers,
          l.error_bound_theoretical < l.error_max_measured
      · have hany : report.layers.any layerViolates = true := by
          simp only [List.any_eq_true, layerViolates, decide_eq_true_eq]
          exact ha
        simp [hany, ha]
      · have hany : report.layers.any layerViolates = false := by
          rw [Bool.eq_false_iff]
          intro hcontra
          exact ha (by simpa [layerViolates] using List.any_eq_true.mp hcontra)
        simp [hany, ha, h, ht]

/-- C5 witness: the theorem instantiated on a one-layer report whose measured
maxima (1/2) sit below the theoretical bounds (1), starting from cleared
fault flags. -/
theorem C5_witness :
    cq_fault_clear.bound_violation = false ∧
    ((∀ l ∈ ((cq_verify_check_all_bounds c5report cq_fault_clear).2.1).layers,
      l.bound_satisfied = true ↔
        l.error_max_measured ≤ l.error_bound_theoretical) ∧
    ((cq_verification_digest_generate
        (cq_verify_check_all_bounds c5report cq_fault_clear).2.1).2.bounds_satisfied = 1 ↔
      ((∀ l ∈ c5report.layers,
          l.error_max_measured ≤ l.error_bound_theoretical) ∧
        c5report.total_error_max_measured ≤ c5report.total_error_theoretical)) ∧
    (((cq_verify_check_all_bounds c5report cq_fault_clear).2.2).bound_violation = true ↔
      ((∃ l ∈ c5report.layers,
          l.error_bound_theoretical < l.error_max_measured) ∨
        c5report.total_error_theoretical < c5report.total_error_max_measured))) :=
  ⟨rfl, C5_bounds_and_digest c5report cq_fault_clear rfl⟩

/-- Helper: for a negative dividend and a positive divisor, C truncating
division and remainder (Int.tdiv, Int.tmod) expressed through the Euclidean
quotient and remainder. -/
theorem tdiv_tmod_of_neg (x d : Int) (hx : x < 0) (hd : 0 < d) :
    (x % d = 0 → x.tdiv d = x / d ∧ x.tmod d = 0) ∧
    (x % d ≠ 0 → x.tdiv d = x / d + 1 ∧ x.tmod d = x % d - d) := by
  have hq := Int.ediv_add_emod x d
  have hr0 : 0 ≤ x % d := Int.emod_nonneg x (ne_of_gt hd)
  have hrd : x % d < d := Int.emod_lt_of_pos x hd
  have hneg : (-x).tdiv d = -(x.tdiv d) := Int.neg_tdiv x d
  have htdivE : (-x).tdiv d = (-x) / d :=
    Int.tdiv_eq_ediv (by omega) (le_of_lt hd)
  have htadd := Int.tdiv_add_tmod x d
  constructor
  · intro h0
    have hu := (Int.ediv_emod_unique (a := -x) (b := d)
        (r := 0) (q := -(x / d)) hd).mpr
      ⟨by rw [mul_neg]; linarith, le_refl 0, hd⟩
    have htd : x.tdiv d = x / d := by
      have h1 := htdivE
      rw [hneg, hu.1] at h1
      omega
    refine ⟨htd, ?_⟩
    rw [htd] at htadd
    linarith
  · intro hne
    have hu := (Int.ediv_emod_unique (a := -x) (b := d)
        (r := d - x % d) (q := -(x / d) - 1) hd).mpr
      ⟨by have hexp : d * (-(x / d) - 1) = -(d * (x / d)) - d := by ring
          rw [hexp]
          linarith,
       by omega, by omega⟩
    have htd : x.tdiv d = x / d + 1 := by
      have h1 := htdivE
      rw [hneg, hu.1] at h1
      omega
    refine ⟨htd, ?_⟩
    rw [htd] at htadd
    have hexp2 : d * (x / d + 1) = d * (x / d) + d := by ring
    rw [hexp2] at htadd
    linarith

/-- Helper: rneDiv really is round to nearest with ties to even - the chosen
integer differs from the exact quotient by at most half the divisor, and when
it differs by exactly half the chosen integer is even. -/
theorem rneDiv_nearest (x d : Int) (hd : 0 < d) :
    2 * |x - d * rneDiv x d| ≤ d ∧
    (2 * |x - d * rneDiv x d| = d → rneDiv x d % 2 = 0) := by
  have hq := Int.ediv_add_emod x d
  have hr0 : 0 ≤ x % d := Int.emod_nonneg x (ne_of_gt hd)
  have hrd : x % d < d := Int.emod_lt_of_pos x hd
  simp only [rneDiv]
  split_ifs with h1 h2 h3
  · have he : x - d * (x / d) = x % d := by linarith
    rw [he, abs_of_nonneg hr0]
    exact ⟨by omega, by omega⟩
  · have he : x - d * (x / d + 1) = x % d - d := by
      have hm : d * (x / d + 1) = d * (x / d) + d := by ring
      rw [hm]
      linarith
    rw [he, abs_of_nonpos (by omega)]
    exact ⟨by omega, by omega⟩
  · have he : x - d * (x / d) = x % d := by linarith
    rw [he, abs_of_nonneg hr0]
    exact ⟨by omega, fun _ => h3⟩
  · have he : x - d * (x / d + 1) = x % d - d := by
      have hm : d * (x / d + 1) = d * (x / d) + d := by ring
      rw [hm]
      linarith
    rw [he, abs_of_nonpos (by omega)]
    exact ⟨by omega, fun _ => by omega⟩

/-- C6: for every 64-bit x and every shift in [0, 62], cq_round_shift_rne
returns exactly what cq_clamp32 yields on the quotient x / 2^shift rounded to
nearest with ties to the even quotient (same saturation, same flags); for
every shift above 62 it raises the overflow flag and returns 0.  The spec
test vectors 1.5 to 2, 2.5 to 2, 3.5 to 4, -1.5 to -2 and -2.5 to -2 at
shift 16 are included. -/
theorem C6_round_shift_rne (x : Int) (shift : Nat) (faults : cq_fault_flags_t)
    (hx1 : -(2 ^ 63) ≤ x) (hx2 : x < 2 ^ 63) :
    (shift ≤ 62 →
      cq_round_shift_rne x shift faults =
        cq_clamp32 (rneDiv x (2 ^ shift)) faults) ∧
    (62 < shift →
      cq_round_shift_rne x shift faults = (0, { faults with overflow := true })) ∧
    (cq_round_shift_rne 98304 16 faults).1 = 2 ∧
    (cq_round_shift_rne 163840 16 faults).1 = 2 ∧
    (cq_round_shift_rne 229376 16 faults).1 = 4 ∧
    (cq_round_shift_rne (-98304) 16 faults).1 = -2 ∧
    (cq_round_shift_rne (-163840) 16 faults).1 = -2 := by
  refine ⟨?_, ?_, rfl, rfl, rfl, rfl, rfl⟩
  · intro hle
    by_cases h0 : shift = 0
    · subst h0
      have hr : rneDiv x (2 ^ 0) = x := by
        norm_num [rneDiv]
      simp only [cq_round_shift_rne]
      rw [hr]
      norm_num
    · simp only [cq_round_shift_rne]
      rw [if_neg (by omega), if_neg h0]
      have hd : (0:Int) < 2 ^ shift := by positivity
      have hh : (0:Int) < 2 ^ (shift - 1) := by positivity
      have hdm : (2:Int) ^ shift = 2 * 2 ^ (shift - 1) := by
        rw [← pow_succ']
        congr 1
        omega
      have hhalf : ((2:Int) ^ shift).tdiv 2 = 2 ^ (shift - 1) := by
        rw [Int.tdiv_eq_ediv (by positivity) (by norm_num), hdm]
        exact Int.mul_ediv_cancel_left _ (by norm_num)
      have hq := Int.ediv_add_emod x (2 ^ shift)
      have hr0 : 0 ≤ x % 2 ^ shift := Int.emod_nonneg x (ne_of_gt hd)
      have hrd : x % 2 ^ shift < 2 ^ shift := Int.emod_lt_of_pos x hd
      congr 1
      simp only [rneDiv]
      rw [hhalf]
      rcases le_or_lt 0 x with hxs | hxs
      · rw [Int.tdiv_eq_ediv hxs (le_of_lt hd), Int.tmod_eq_emod hxs (le_of_lt hd)]
        split_ifs <;> omega
      · rcases eq_or_ne (x % 2 ^ shift) 0 with hz | hz
        · obtain ⟨htd, htm⟩ := (tdiv_tmod_of_neg x (2 ^ shift) hxs hd).1 hz
          rw [htd, htm]
          split_ifs <;> omega
        · obtain ⟨htd, htm⟩ := (tdiv_tmod_of_neg x (2 ^ shift) hxs hd).2 hz
          rw [htd, htm]
          split_ifs <;> omega
  · intro hgt
    simp only [cq_round_shift_rne]
    rw [if_pos hgt]

/-- C6 witness: the theorem instantiated at x = 0x18000, shift 16, cleared
flags, projecting the 1.5-rounds-to-2 vector. -/
theorem C6_witness :
    -(2 ^ 63 : Int) ≤ 98304 ∧ (98304 : Int) < 2 ^ 63 ∧
    (cq_round_shift_rne 98304 16 cq_fault_clear).1 = 2 :=
  ⟨by norm_num, by norm_num,
    (C6_round_shift_rne 98304 16 cq_fault_clear (by norm_num) (by norm_num)).2.2.1⟩

/-- C7: cq_div_q16 does not return the RNE rounding of the exact quotient.
At a = 5, b = 7 the exact quotient 327680 / 7 = 46811.43 is not a tie, yet
the code compares the remainder 3 against the truncated half divisor 3,
classifies it as a tie and rounds the odd quotient away from zero, returning
46812 instead of the nearest integer 46811.  At a = -1, b = 100000 the exact
quotient -0.65536 rounds to -1, but the code rounds away from zero using the
sign of the truncated quotient 0 and returns +1.  Division by zero does set
the fatal div_zero flag and return 0, as claimed. -/
theorem C7_div_q16_not_rne :
    (cq_div_q16 5 7 cq_fault_clear).1 = 46812 ∧
    rneDiv (5 * 2 ^ 16) 7 = 46811 ∧
    (cq_div_q16 (-1) 100000 cq_fault_clear).1 = 1 ∧
    rneDiv ((-1) * 2 ^ 16) 100000 = -1 ∧
    cq_div_q16 5 0 cq_fault_clear = (0, { cq_fault_clear with div_zero := true }) := by
  decide

/-- C8: on the sort-buffer path, for every calibration report with at least
one tensor, cq_calibration_compute_global_coverage sets global_coverage_p10
to the element at index min(floor(N / 10), N - 1) of the coverage ratios
sorted ascending, with no interpolation; the sort is ascending-sorted and a
permutation of the coverage ratios. -/
theorem C8_p10_percentile (report : cq_calibration_report_t)
    (h : report.tensors ≠ []) :
    (cq_calibration_compute_global_coverage report).global_coverage_p10 =
      (List.insertionSort (fun a b => a ≤ b)
        (report.tensors.map (fun t => t.coverage_ratio))).getD
        (min (report.tensors.length / 10) (report.tensors.length - 1)) 0 ∧
    List.Sorted (fun a b : ℚ => a ≤ b)
      (List.insertionSort (fun a b => a ≤ b)
        (report.tensors.map (fun t => t.coverage_ratio))) ∧
    (List.insertionSort (fun a b => a ≤ b)
        (report.tensors.map (fun t => t.coverage_ratio))).Perm
      (report.tensors.map (fun t => t.coverage_ratio)) := by
  have hn : 0 < report.tensors.length := List.length_pos.mpr h
  have hidx : (⌊(report.tensors.length : ℚ) * (1 / 10)⌋).toNat =
      report.tensors.length / 10 := by
    have hcast : ((report.tensors.length : ℚ) * (1 / 10)) =
        (report.tensors.length : ℚ) / ((10 : ℕ) : ℚ) := by
      push_cast
      ring
    rw [hcast, Int.floor_toNat, Nat.floor_div_nat, Nat.floor_natCast]
  have hlt : report.tensors.length / 10 < report.tensors.length :=
    Nat.div_lt_self hn (by norm_num)
  refine ⟨?_, List.sorted_insertionSort _ _, List.perm_insertionSort _ _⟩
  simp only [cq_calibration_compute_global_coverage]
  rw [if_neg (by simp [h]), hidx, if_neg (by omega)]
  have hmin : min (report.tensors.length / 10) (report.tensors.length - 1) =
      report.tensors.length / 10 := by omega
  rw [hmin]

/-- C8 witness: the theorem instantiated on the two-tensor report with
coverages 3/4 and 1/2 (index floor(2/10) = 0 of the sorted list, i.e. 1/2). -/
theorem C8_witness :
    c8report.tensors ≠ [] ∧
    (cq_calibration_compute_global_coverage c8report).global_coverage_p10 =
      (List.insertionSort (fun a b => a ≤ b)
        (c8report.tensors.map (fun t => t.coverage_ratio))).getD
        (min (c8report.tensors.length / 10) (c8report.tensors.length - 1)) 0 :=
  ⟨by simp [c8report],
   (C8_p10_percentile c8report (by simp [c8report])).1⟩

/-- C9: a tensor whose statistics never received a finite sample keeps the
sentinels min_observed = FLT_MAX and max_observed = -FLT_MAX installed by
cq_tensor_stats_init, and for every safe range with min_safe ≤ FLT_MAX and
-FLT_MAX ≤ max_safe, cq_tensor_check_range_veto returns false and stores
range_veto = false: the completely unobserved tensor silently passes the
range check. -/
theorem C9_unobserved_passes (stats : cq_tensor_stats_t)
    (h1 : stats.min_observed = fltMax) (h2 : stats.max_observed = -fltMax)
    (h3 : stats.min_safe ≤ fltMax) (h4 : -fltMax ≤ stats.max_safe) :
    (∀ tid li ms xs, (cq_tensor_stats_init tid li ms xs).min_observed = fltMax ∧
      (cq_tensor_stats_init tid li ms xs).max_observed = -fltMax) ∧
    cq_tensor_check_range_veto stats =
      (false, { stats with range_veto := false }) := by
  refine ⟨fun tid li ms xs => ⟨rfl, rfl⟩, ?_⟩
  unfold cq_tensor_check_range_veto
  rw [if_neg]
  push_neg
  rw [h1, h2]
  exact ⟨h3, h4⟩

/-- C9 witness: the theorem instantiated on a freshly initialised tensor with
safe range [-1, 1]. -/
theorem C9_witness :
    (cq_tensor_stats_init 7 3 (-1) 1).min_observed = fltMax ∧
    (cq_tensor_stats_init 7 3 (-1) 1).max_observed = -fltMax ∧
    (cq_tensor_stats_init 7 3 (-1) 1).min_safe ≤ fltMax ∧
    -fltMax ≤ (cq_tensor_stats_init 7 3 (-1) 1).max_safe ∧
    cq_tensor_check_range_veto (cq_tensor_stats_init 7 3 (-1) 1) =
      (false, { cq_tensor_stats_init 7 3 (-1) 1 with range_veto := false }) :=
  ⟨rfl, rfl, by norm_num [cq_tensor_stats_init, fltMax],
   by norm_num [cq_tensor_stats_init, fltMax],
   (C9_unobserved_passes (cq_tensor_stats_init 7 3 (-1) 1) rfl rfl
     (by norm_num [cq_tensor_stats_init, fltMax])
     (by norm_num [cq_tensor_stats_init, fltMax])).2⟩

/-- C10: whenever the claimed safe range is degenerate (width magnitude below
the configured degenerate epsilon), cq_tensor_compute_coverage marks the
tensor degenerate and sets coverage_ratio to 1.0 without reaching the
division; on the branch that does divide, the denominator has magnitude at
least the epsilon, hence is nonzero whenever the epsilon is positive. -/
theorem C10_degenerate_guard (stats : cq_tensor_stats_t)
    (config : cq_calibrate_config_t) :
    (|stats.max_safe - stats.min_safe| < config.degenerate_epsilon →
      (cq_tensor_compute_coverage stats (some config)).is_degenerate = true ∧
      (cq_tensor_compute_coverage stats (some config)).coverage_ratio = 1) ∧
    (¬ |stats.max_observed - stats.min_observed| < config.degenerate_epsilon →
     ¬ |stats.max_safe - stats.min_safe| < config.degenerate_epsilon →
      (cq_tensor_compute_coverage stats (some config)).coverage_ratio =
        (stats.max_observed - stats.min_observed) /
          (stats.max_safe - stats.min_safe) ∧
      config.degenerate_epsilon ≤ |stats.max_safe - stats.min_safe| ∧
      (0 < config.degenerate_epsilon → stats.max_safe - stats.min_safe ≠ 0)) := by
  constructor
  · intro hdeg
    simp only [cq_tensor_compute_coverage]
    by_cases hobs : |stats.max_observed - stats.min_observed| <
        config.degenerate_epsilon
    · rw [if_pos hobs]
      exact ⟨rfl, rfl⟩
    · rw [if_neg hobs, if_pos hdeg]
      exact ⟨rfl, rfl⟩
  · intro hobs hsafe
    simp only [cq_tensor_compute_coverage]
    rw [if_neg hobs, if_neg hsafe]
    refine ⟨rfl, not_lt.mp hsafe, fun heps hzero => ?_⟩
    rw [hzero, abs_zero] at hsafe
    exact hsafe heps

/-- C10 witness: the theorem applied to a tensor whose safe range [5, 5] is
degenerate (first branch) and to a tensor with safe range [0, 4] that takes
the division branch. -/
theorem C10_witness :
    |c10degStats.max_safe - c10degStats.min_safe| < c10config.degenerate_epsilon ∧
    (cq_tensor_compute_coverage c10degStats (some c10config)).is_degenerate = true ∧
    (cq_tensor_compute_coverage c10degStats (some c10config)).coverage_ratio = 1 ∧
    (cq_tensor_compute_coverage c10okStats (some c10config)).coverage_ratio =
      (c10okStats.max_observed - c10okStats.min_observed) /
        (c10okStats.max_safe - c10okStats.min_safe) :=
  ⟨by norm_num [c10degStats, c10config],
   ((C10_degenerate_guard c10degStats c10config).1
     (by norm_num [c10degStats, c10config])).1,
   ((C10_degenerate_guard c10degStats c10config).1
     (by norm_num [c10degStats, c10config])).2,
   ((C10_degenerate_guard c10okStats c10config).2
     (by norm_num [c10okStats, c10config])
     (by norm_num [c10okStats, c10config])).1⟩
